import Mathlib

/-!
# Formal model of the `webscrapper` scraping pipeline

A shallow embedding, in Lean 4, of the core of the `webscrapper` repository
(WordPress/WooCommerce product scraper).  The Python sources modelled here are:

* `app/services/scraper_service.py` — sanitization, login, field extraction,
  price fallbacks, specification-table parsing, image filtering, link
  discovery with a test-mode cap, the worker units and the orchestrator
  (`scrape_all`);
* `app/repositories/database_repository.py` — the upsert (`save_product`)
  keyed on the `sku` UNIQUE column, with child image and category rows.

Browser interaction (Selenium) is modelled by explicit page/world records
whose fields correspond one-to-one to the DOM queries the code performs.
Machine-level details that the claims do not touch (exact Unicode whitespace
classes, Python's multi-character `'İ'.lower()`) are modelled on the ASCII
fragment actually exercised, as noted at each definition.
-/

/-! ## Python string primitives

Helpers mirroring the exact Python string operations used by the source:
`str.strip`, the `in` substring test, `a or b` on strings/None, `str.replace`,
`str.lower`/`str.upper` (restricted to ASCII plus the Azerbaijani letters the
source itself transliterates).
-/

/-- The whitespace class of Python's `str.strip` / regex `\s`, restricted to
its ASCII members (the only ones the modelled code paths can meet). -/
def isPySpace (c : Char) : Bool :=
  c = ' ' || c = '\t' || c = '\n' || c = '\r' || c = '\x0b' || c = '\x0c'

/-- `str.strip()` on a character list: drop whitespace on both ends. -/
def pyStripL (s : List Char) : List Char :=
  ((s.dropWhile isPySpace).reverse.dropWhile isPySpace).reverse

/-- Python `s.strip()`. -/
def pyStrip (s : String) : String :=
  String.mk (pyStripL s.data)

/-- Substring test on character lists (Python's `pat in hay`). -/
def isInfixL (pat hay : List Char) : Bool :=
  hay.tails.any (fun t => pat.isPrefixOf t)

/-- Python `pat in hay` (substring containment). -/
def pyIn (pat hay : String) : Bool :=
  isInfixL pat.data hay.data

/-- Python truthiness of an optional string (`None` and `""` are falsy). -/
def truthyStr : Option String → Bool
  | none => false
  | some s => s ≠ ""

/-- Python `a or b` on optional strings: `a` when truthy, otherwise `b`. -/
def pyOrStr (a b : Option String) : Option String :=
  if truthyStr a then a else b

/-- One step of Python `str.replace(pat, "")`: fuelled recursion over the
haystack; the fuel is the haystack length, enough because every step consumes
at least one character. -/
def removeAllAux (pat : List Char) : Nat → List Char → List Char
  | 0, hay => hay
  | _ + 1, [] => []
  | fuel + 1, c :: rest =>
    if pat ≠ [] && pat.isPrefixOf (c :: rest) then
      removeAllAux pat fuel ((c :: rest).drop pat.length)
    else
      c :: removeAllAux pat fuel rest

/-- Python `s.replace(pat, "")` — removes every occurrence of `pat`. -/
def pyRemoveAll (pat s : String) : String :=
  String.mk (removeAllAux pat.data s.data.length s.data)

/-- Python `str.lower`, on the character set reachable in this code base:
ASCII letters plus the Azerbaijani uppercase letters used by the site. -/
def pyLowerChar (c : Char) : Char :=
  if c.toNat ≥ 65 && c.toNat ≤ 90 then Char.ofNat (c.toNat + 32)
  else if c = 'Ö' then 'ö' else if c = 'Ü' then 'ü'
  else if c = 'Ç' then 'ç' else if c = 'Ş' then 'ş'
  else if c = 'Ğ' then 'ğ' else if c = 'Ə' then 'ə'
  else c

/-- Python `s.lower()`. -/
def pyLower (s : String) : String :=
  String.mk (s.data.map pyLowerChar)

/-! ## `ScraperService._sanitize_filename`

```python
if not name:
    return "product"
name = (name.replace("Ə", "E") ... )        # Azerbaijani char map
name = re.sub(r"[^a-zA-Z0-9\s_-]", "", name)  # Remove special chars
return re.sub(r"\s+", "_", name).strip().upper()
```
-/

/-- The fixed Azerbaijani transliteration table applied character-wise
(each Python `str.replace` call replaces one single character). -/
def azTranslit (c : Char) : Char :=
  if c = 'Ə' then 'E' else if c = 'ə' then 'e'
  else if c = 'İ' then 'I' else if c = 'ı' then 'i'
  else if c = 'Ö' then 'O' else if c = 'ö' then 'o'
  else if c = 'Ü' then 'U' else if c = 'ü' then 'u'
  else if c = 'Ş' then 'S' else if c = 'ş' then 's'
  else if c = 'Ç' then 'C' else if c = 'ç' then 'c'
  else if c = 'Ğ' then 'G' else if c = 'ğ' then 'g'
  else c

/-- The character class `[a-zA-Z0-9\s_-]` kept by the first `re.sub`. -/
def keepChar (c : Char) : Bool :=
  ('a' ≤ c && c ≤ 'z') || ('A' ≤ c && c ≤ 'Z') || ('0' ≤ c && c ≤ '9')
    || isPySpace c || c = '_' || c = '-'

/-- `re.sub(r"\s+", "_", ·)`: every maximal whitespace run becomes one `'_'`.
The flag records whether the previous character was whitespace. -/
def collapseWsAux : Bool → List Char → List Char
  | _, [] => []
  | prevSp, c :: cs =>
    if isPySpace c then
      if prevSp then collapseWsAux true cs else '_' :: collapseWsAux true cs
    else
      c :: collapseWsAux false cs

/-- `re.sub(r"\s+", "_", s)`. -/
def collapseWs (l : List Char) : List Char :=
  collapseWsAux false l

/-- `ScraperService._sanitize_filename` (scraper_service.py lines 47-65). -/
def sanitize_filename (name : String) : String :=
  if name = "" then "product"
  else
    let l1 := name.data.map azTranslit
    let l2 := l1.filter keepChar
    let l3 := collapseWs l2
    let l4 := pyStripL l3
    String.mk (l4.map Char.toUpper)

/-- The character set `[A-Z0-9_]` named by claim C4. -/
def sanitizedCharClaim (c : Char) : Bool :=
  ('A' ≤ c && c ≤ 'Z') || ('0' ≤ c && c ≤ '9') || c = '_'

/-- The character set `[A-Z0-9_-]` actually produced by the code:
the hyphen survives both regexes and `str.upper`. -/
def sanitizedChar (c : Char) : Bool :=
  sanitizedCharClaim c || c = '-'

/-! ### Helper lemmas for the sanitizer range -/

theorem char_le_iff_toNat {a b : Char} : a ≤ b ↔ a.toNat ≤ b.toNat := by
  simp [Char.le_def, UInt32.le_def, BitVec.le_def, Char.toNat, UInt32.toNat]

theorem mem_collapseWsAux {c : Char} :
    ∀ (b : Bool) (l : List Char), c ∈ collapseWsAux b l →
      c = '_' ∨ (c ∈ l ∧ isPySpace c = false) := by
  intro b l
  induction l generalizing b with
  | nil =>
    intro h
    simp [collapseWsAux] at h
  | cons d rest ih =>
    intro h
    by_cases hd : isPySpace d
    · cases b with
      | true =>
        simp only [collapseWsAux, hd, if_true] at h
        rcases ih true h with h1 | ⟨h2, h3⟩
        · exact Or.inl h1
        · exact Or.inr ⟨List.mem_cons_of_mem _ h2, h3⟩
      | false =>
        simp only [collapseWsAux, hd, if_true, if_false, Bool.false_eq_true,
          List.mem_cons] at h
        rcases h with h1 | h1
        · exact Or.inl h1
        · rcases ih true h1 with h2 | ⟨h2, h3⟩
          · exact Or.inl h2
          · exact Or.inr ⟨List.mem_cons_of_mem _ h2, h3⟩
    · simp [collapseWsAux, hd, List.mem_cons] at h
      rcases h with h1 | h1
      · subst h1
        exact Or.inr ⟨List.mem_cons_self _ _, by simpa using hd⟩
      · rcases ih false h1 with h2 | ⟨h2, h3⟩
        · exact Or.inl h2
        · exact Or.inr ⟨List.mem_cons_of_mem _ h2, h3⟩

theorem mem_pyStripL {c : Char} {l : List Char} (h : c ∈ pyStripL l) : c ∈ l := by
  unfold pyStripL at h
  rw [List.mem_reverse] at h
  have h1 := (List.dropWhile_sublist (l := (l.dropWhile isPySpace).reverse) isPySpace).subset h
  rw [List.mem_reverse] at h1
  exact (List.dropWhile_sublist isPySpace).subset h1

theorem toUpper_sanitizedChar {c : Char}
    (hk : keepChar c = true) (hs : isPySpace c = false) :
    sanitizedChar c.toUpper = true := by
  simp only [keepChar, Bool.or_eq_true, Bool.and_eq_true, decide_eq_true_eq] at hk
  rcases hk with ((((⟨h1, h2⟩ | ⟨h1, h2⟩) | ⟨h1, h2⟩) | h1) | h1) | h1
  · -- lowercase letter: uppercased into [A-Z]
    rw [char_le_iff_toNat] at h1 h2
    have ha : ('a' : Char).toNat = 97 := by decide
    have hz : ('z' : Char).toNat = 122 := by decide
    rw [ha] at h1; rw [hz] at h2
    have hcond : c.toNat ≥ 97 ∧ c.toNat ≤ 122 := ⟨h1, h2⟩
    rw [Char.toUpper]
    simp only [hcond, and_self, if_pos]
    interval_cases h : c.toNat <;> decide
  · -- uppercase letter: unchanged
    rw [char_le_iff_toNat] at h1 h2
    have ha : ('A' : Char).toNat = 65 := by decide
    have hz : ('Z' : Char).toNat = 90 := by decide
    rw [ha] at h1; rw [hz] at h2
    rw [Char.toUpper]
    rw [if_neg (by omega)]
    simp only [sanitizedChar, sanitizedCharClaim, Bool.or_eq_true, Bool.and_eq_true,
      decide_eq_true_eq]
    exact Or.inl (Or.inl (Or.inl ⟨by rw [char_le_iff_toNat]; omega,
      by rw [char_le_iff_toNat]; omega⟩))
  · -- digit: unchanged
    rw [char_le_iff_toNat] at h1 h2
    have ha : ('0' : Char).toNat = 48 := by decide
    have hz : ('9' : Char).toNat = 57 := by decide
    rw [ha] at h1; rw [hz] at h2
    rw [Char.toUpper]
    rw [if_neg (by omega)]
    simp only [sanitizedChar, sanitizedCharClaim, Bool.or_eq_true, Bool.and_eq_true,
      decide_eq_true_eq]
    exact Or.inl (Or.inl (Or.inr ⟨by rw [char_le_iff_toNat]; omega,
      by rw [char_le_iff_toNat]; omega⟩))
  · exact absurd h1 (by simp [hs])
  · subst h1; decide
  · subst h1; decide

/-- For nonempty input, every character of `sanitize_filename name` lies in
`[A-Z0-9_-]`.  (The empty input yields the placeholder `"product"`, which is
lowercase and hence outside even that set.) -/
theorem sanitize_filename_chars (name : String) (h : name ≠ "") :
    ((sanitize_filename name).data.all sanitizedChar) = true := by
  rw [sanitize_filename, if_neg h]
  simp only [List.all_eq_true]
  intro c hc
  have hc2 : c ∈ (pyStripL (collapseWs
      ((name.data.map azTranslit).filter keepChar))).map Char.toUpper := hc
  rw [List.mem_map] at hc2
  obtain ⟨d, hd, rfl⟩ := hc2
  have hd2 := mem_pyStripL hd
  rcases mem_collapseWsAux false _ hd2 with h1 | ⟨h1, h2⟩
  · subst h1; decide
  · have hk : keepChar d = true := List.of_mem_filter h1
    exact toUpper_sanitizedChar hk h2

/-! ## Claim C4 — folder-name sanitizer

The claim asserts output characters always lie in `[A-Z0-9_]` and that empty
or blank input maps to the placeholder.  Both parts fail on the code: `'-'`
survives both regexes and `str.upper`, and a whitespace-only input is not
caught by `if not name` (only `""` is falsy), so `" "` becomes `"_"`.
Moreover the placeholder `"product"` itself is lowercase.
-/

/-- C4 counterexample: `_sanitize_filename "a-b" = "A-B"` contains `'-'`,
outside the claimed class `[A-Z0-9_]`; and the blank input `" "` yields
`"_"`, not the placeholder `"product"`. -/
theorem C4_sanitize_counterexample :
    sanitize_filename "a-b" = "A-B" ∧ sanitizedCharClaim '-' = false ∧
    sanitize_filename " " = "_" ∧ sanitize_filename " " ≠ "product" := by
  decide

/-- C4 (amended): `_sanitize_filename` is total; on nonempty input every
character of the result lies in `[A-Z0-9_-]` (hyphen included); the empty
input yields the fixed placeholder `"product"`; a whitespace-only input
yields `"_"`, not the placeholder. -/
theorem C4_sanitize_amended :
    (∀ name : String, name ≠ "" →
      ((sanitize_filename name).data.all sanitizedChar) = true) ∧
    sanitize_filename "" = "product" ∧ sanitize_filename " " = "_" :=
  ⟨sanitize_filename_chars, by decide, by decide⟩

/-- Witness for C4 (amended) at the concrete input `"Əli qapağı-09"`. -/
theorem C4_sanitize_amended_witness :
    ((sanitize_filename "Əli qapağı-09").data.all sanitizedChar) = true :=
  C4_sanitize_amended.1 "Əli qapağı-09" (by decide)

/-! ## `ScraperService._parse_spec_table`

```python
for row in rows:
    cols = row.find_elements(By.TAG_NAME, "td")
    if len(cols) == 2:
        raw_key = cols[0].text.strip().replace(":", "")
        value = cols[1].text.strip() if cols[1].text.strip() else None
        if not raw_key:
            continue
        key_lower = raw_key.lower()
        if "oem" in key_lower and "nömrə" in key_lower:
            product.oem = value
            product.attributes[raw_key] = value
        else:
            product.attributes[raw_key] = value
```
A table row is modelled by the list of its `td` texts.  The `attributes`
dict is an insertion-ordered association list with unique keys.
-/

/-- Python dict assignment `d[k] = v`: overwrite in place when the key is
present, append otherwise. -/
def dictSet : List (String × Option String) → String → Option String →
    List (String × Option String)
  | [], k, v => [(k, v)]
  | p :: rest, k, v => if p.1 == k then (k, v) :: rest else p :: dictSet rest k v

/-- Python dict read `d.get(k)`: `some value` when the key is present. -/
def dictLookup : List (String × Option String) → String → Option (Option String)
  | [], _ => none
  | p :: rest, k => if p.1 == k then some p.2 else dictLookup rest k

theorem dictLookup_dictSet (d : List (String × Option String)) (k : String)
    (v : Option String) : dictLookup (dictSet d k v) k = some v := by
  induction d with
  | nil => simp [dictSet, dictLookup]
  | cons p rest ih =>
    by_cases h : p.1 == k
    · simp [dictSet, dictLookup, h]
    · simp only [dictSet, h, Bool.false_eq_true, if_false, dictLookup]
      exact ih

/-- The OEM-row test of the source: `"oem" in key_lower and "nömrə" in
key_lower`. -/
def isOemKey (raw_key : String) : Bool :=
  pyIn "oem" (pyLower raw_key) && pyIn "nömrə" (pyLower raw_key)

/-- Processing of one table row (state: the `oem` field and the `attributes`
dict); rows without exactly two `td` cells are skipped. -/
def specRowStep (st : Option String × List (String × Option String)) :
    List String → Option String × List (String × Option String)
  | [c0, c1] =>
    let raw_key := pyRemoveAll ":" (pyStrip c0)
    let value := if pyStrip c1 ≠ "" then some (pyStrip c1) else none
    if raw_key = "" then st
    else if isOemKey raw_key then (value, dictSet st.2 raw_key value)
    else (st.1, dictSet st.2 raw_key value)
  | _ => st

/-- `_parse_spec_table` (scraper_service.py lines 148-195).  `rows` holds the
td-texts of `table.pn-spec-list tr`; when it is empty and the description-tab
control exists, the rows found after the forced click are used instead. -/
def parse_spec_table (rows : List (List String)) (descTab : Bool)
    (rowsAfterClick : List (List String)) (oem0 : Option String)
    (attrs0 : List (String × Option String)) :
    Option String × List (String × Option String) :=
  let rows := if rows = [] then (if descTab then rowsAfterClick else rows) else rows
  rows.foldl specRowStep (oem0, attrs0)

/-! ## Claim C7 — specification-table parsing

The claim says the key is normalized "by stripping a trailing colon".  The
code runs `.replace(":", "")`, which removes *every* colon, also interior
ones.  The rest of the claim (OEM rows both set the dedicated field and land
in the attribute map; empty values are recorded as null) matches the code.
-/

/-- C7 counterexample: the row `("a:b:", "v")` is recorded under the key
`"ab"` — all colons removed — whereas stripping only the trailing colon
would give `"a:b"`, which is absent from the attribute map. -/
theorem C7_spec_table_counterexample :
    parse_spec_table [["a:b:", "v"]] false [] none [] = (none, [("ab", some "v")]) ∧
    dictLookup (parse_spec_table [["a:b:", "v"]] false [] none []).2 "a:b" = none := by
  decide

/-- C7 (amended): for a two-column row whose key — whitespace-stripped and
with *all* colons removed — is nonempty: an OEM-matching key sets the
dedicated OEM field to the row's value *and* records the key/value in the
attribute map; any other key only records the key/value, leaving the OEM
field unchanged; a row whose value is blank is recorded with a null value,
not omitted. -/
theorem C7_spec_table_amended (oem0 : Option String)
    (attrs0 : List (String × Option String)) (k v : String)
    (hk : pyRemoveAll ":" (pyStrip k) ≠ "") :
    dictLookup (specRowStep (oem0, attrs0) [k, v]).2 (pyRemoveAll ":" (pyStrip k)) =
      some (if pyStrip v ≠ "" then some (pyStrip v) else none) ∧
    (isOemKey (pyRemoveAll ":" (pyStrip k)) = true →
      (specRowStep (oem0, attrs0) [k, v]).1 =
        (if pyStrip v ≠ "" then some (pyStrip v) else none)) ∧
    (isOemKey (pyRemoveAll ":" (pyStrip k)) = false →
      (specRowStep (oem0, attrs0) [k, v]).1 = oem0) := by
  refine ⟨?_, ?_, ?_⟩
  · by_cases ho : isOemKey (pyRemoveAll ":" (pyStrip k))
    · simp only [specRowStep, if_neg hk, ho, if_true]
      exact dictLookup_dictSet _ _ _
    · simp only [specRowStep, if_neg hk, ho, Bool.false_eq_true, if_false]
      exact dictLookup_dictSet _ _ _
  · intro ho
    simp [specRowStep, if_neg hk, ho]
  · intro ho
    simp [specRowStep, if_neg hk, ho]

/-- Witness for C7 (amended) at the concrete OEM row
`("OEM Nömrə:", "55250-2B000")` and at the empty-value row `("Say", "")`. -/
theorem C7_spec_table_amended_witness :
    dictLookup (specRowStep (none, []) ["OEM Nömrə:", "55250-2B000"]).2 "OEM Nömrə" =
      some (some "55250-2B000") ∧
    (specRowStep (none, []) ["OEM Nömrə:", "55250-2B000"]).1 = some "55250-2B000" ∧
    dictLookup (specRowStep (none, []) ["Say", ""]).2 "Say" = some none := by
  have h1 := C7_spec_table_amended none [] "OEM Nömrə:" "55250-2B000" (by decide)
  have h2 := C7_spec_table_amended none [] "Say" "" (by decide)
  refine ⟨?_, ?_, ?_⟩
  · have := h1.1
    simpa using this
  · have := h1.2.1 (by decide)
    simpa using this
  · have := h2.1
    simpa using this

/-! ## The product record and the extraction page model

`ProductData` mirrors `app/dto/product_data.py` (string fields optional,
collections defaulting to empty; the `attributes` dict as an
insertion-ordered association list).  A loaded detail page is modelled by
`Page`, whose fields correspond exactly to the Selenium queries
`scrape_product` performs: `findText s` is `find_element(s).text` (`none`
when the element is missing or the read raises), `findTexts s` the texts of
`find_elements(s)`, `findAttr s a` is `find_element(s).get_attribute(a)`
(`none` = element missing, `some none` = attribute absent), `specRows` /
`specRowsAfterClick` the td-texts of the spec table before / after the
forced description-tab click, and `gallery` the `img` elements of
`.woocommerce-product-gallery` (`none` = container missing).
-/

structure ProductData where
  wp_id : Option String := none
  title : Option String := none
  price : Option String := none
  description : Option String := none
  sku : Option String := none
  oem : Option String := none
  tags : List String := []
  attributes : List (String × Option String) := []
  images : List String := []
  categories : List String := []
  url : Option String := none
  scraped_at : Option String := none
deriving Repr, DecidableEq

/-- One `img` element of the product gallery, with the three source
attributes probed by the code and the `class` attribute. -/
structure ImgElem where
  dataLargeImage : Option String
  dataSrc : Option String
  srcAttr : Option String
  classAttr : Option String
deriving Repr, DecidableEq

structure Page where
  findText : String → Option String
  findTexts : String → List String
  findAttr : String → String → Option (Option String)
  specRows : List (List String)
  descTab : Bool
  specRowsAfterClick : List (List String)
  gallery : Option (List ImgElem)

/-- The configuration fields `scrape_product`, `get_product_links` and
`scrape_all` read (`app/config/scraper_config.py`). -/
structure Config where
  base_url : String
  download_images : Bool
  test_mode : Bool
  test_limit : Nat
  login_enabled : Bool
  selectors_title : String
  selectors_price : String
  selectors_description : String
  selectors_product_links : String
  selectors_pagination_next : String

/-- `FileRepository.download_image(url, filename, subfolder)`:
the local path, or `none` on failure. -/
structure Deps where
  download_image : String → String → String → Option String

/-- `ScraperService._extract_text_safe` (lines 105-120): trimmed element
text, `none` when the element is missing or its trimmed text is empty. -/
def extract_text_safe (page : Page) (selector : String) : Option String :=
  match page.findText selector with
  | none => none
  | some t => if pyStrip t ≠ "" then some (pyStrip t) else none

/-- The ordered price selector variants of `_extract_price` (lines 127-133). -/
def price_selectors : List String :=
  ["div.summary p.price span.woocommerce-Price-amount",
   "p.price span.woocommerce-Price-amount",
   "span.price .woocommerce-Price-amount",
   ".price ins .woocommerce-Price-amount",
   ".price .amount"]

/-- The loop body of `_extract_price`: among the elements matched by one
variant take the last; succeed only on non-empty trimmed text. -/
def extractPriceAux (page : Page) : List String → Option String
  | [] => none
  | sel :: rest =>
    match (page.findTexts sel).getLast? with
    | none => extractPriceAux page rest
    | some t => if pyStrip t ≠ "" then some (pyStrip t) else extractPriceAux page rest

/-- `ScraperService._extract_price` (lines 122-146). -/
def extract_price (page : Page) : Option String :=
  extractPriceAux page price_selectors

/-- What one variant yields on this page (the loop body semantics of
`_extract_price` for a single selector). -/
def priceProbe (page : Page) (sel : String) : Option String :=
  match (page.findTexts sel).getLast? with
  | none => none
  | some t => if pyStrip t ≠ "" then some (pyStrip t) else none

/-- The price assignment of `scrape_product` (lines 223-230): the variant
list first, the single configured selector only if it yielded nothing. -/
def scrape_price (cfg : Config) (page : Page) : Option String :=
  let p0 := extract_price page
  if truthyStr p0 then p0 else extract_text_safe page cfg.selectors_price

/-- The fixed thumbnail-dimension substrings filtered out of gallery image
URLs (lines 301-311). -/
def thumbSuffixes : List String :=
  ["-100x100.", "-150x150.", "-32x32.", "-24x", "-36x", "-48x"]

def isThumb (src : String) : Bool :=
  thumbSuffixes.any (fun x => pyIn x src)

/-- The resolved source of one gallery image:
`data-large_image or data-src or src` with Python `or`. -/
def resolveSrc (img : ImgElem) : Option String :=
  pyOrStr (pyOrStr img.dataLargeImage img.dataSrc) img.srcAttr

/-- The gallery filter loop (lines 283-313), accumulating kept URLs in order
and a `seen` set.  Mirrors the Python condition
`src and src not in seen and "http" in src and "zoomImg" not in
img.get_attribute("class") or ""` with its short-circuit order: the `class`
attribute is only read after the first three tests pass, and reading it on
an element without a `class` raises `TypeError` (`"zoomImg" not in None`),
which aborts the whole images block — modelled as `none`. -/
def filterImagesAux : List ImgElem → List String → List String → Option (List String)
  | [], acc, _ => some acc
  | img :: rest, acc, seen =>
    match resolveSrc img with
    | none => filterImagesAux rest acc seen
    | some s =>
      if s = "" then filterImagesAux rest acc seen
      else if s ∈ seen then filterImagesAux rest acc seen
      else if pyIn "http" s = false then filterImagesAux rest acc seen
      else
        match img.classAttr with
        | none => none
        | some cls =>
          if pyIn "zoomImg" cls then filterImagesAux rest acc seen
          else if isThumb s then filterImagesAux rest acc seen
          else filterImagesAux rest (acc ++ [s]) (s :: seen)

def filterImages (imgs : List ImgElem) : Option (List String) :=
  filterImagesAux imgs [] []

/-- A bare candidate URL as a gallery element (only `src`, empty class),
used to state the claim's example over plain URL sequences. -/
def imgOfUrl (u : String) : ImgElem :=
  { dataLargeImage := none, dataSrc := none, srcAttr := some u, classAttr := some "" }

/-- `u.split("?")[0].split(".")[-1]`, clamped to `"jpg"` when longer than 4. -/
def extOf (u : String) : String :=
  let base := (u.splitOn "?").headD ""
  let ext := ((base.splitOn ".").getLast?).getD ""
  if ext.length > 4 then "jpg" else ext

/-- The sequential 1-based download loop (lines 321-331), keeping only URLs
that resolved to a local path. -/
def downloadAll (deps : Deps) (urls : List String) (base_path : String) : List String :=
  urls.enum.filterMap
    (fun p => deps.download_image p.2 (toString (p.1 + 1) ++ "." ++ extOf p.2) base_path)

/-- `ScraperService.scrape_product` (lines 197-346) on a loaded page.
Returns the record and the updated `global_counter`.  The `while`-level
try/except that turns an uncaught navigation failure into `None` is modelled
at the worker boundary (`WorkerOutcome` below); every probe here is
best-effort exactly as in the source. -/
def scrape_product (cfg : Config) (deps : Deps) (now : String) (url : String)
    (page : Page) (counter : Nat) : ProductData × Nat :=
  -- WP ID: container id attribute, `str.replace("product-", "")`; a missing
  -- element or attribute raises and falls back to the thread-safe counter
  let wpStep : Option String × Nat :=
    match page.findAttr "div.product.type-product" "id" with
    | some (some idAttr) => (some (pyRemoveAll "product-" idAttr), counter)
    | some none => (some (toString (counter + 1)), counter + 1)
    | none => (some (toString (counter + 1)), counter + 1)
  let title := extract_text_safe page cfg.selectors_title
  let price := scrape_price cfg page
  let description := extract_text_safe page cfg.selectors_description
  let sku : Option String :=
    match page.findText ".sku_wrapper .sku" with
    | some t => if pyStrip t ≠ "" then some (pyStrip t) else none
    | none =>
      match page.findText ".sku" with
      | some t => if pyStrip t ≠ "" then some (pyStrip t) else none
      | none => none
  let st := parse_spec_table page.specRows page.descTab page.specRowsAfterClick none []
  let categories := ((page.findTexts ".posted_in a").map pyStrip).filter (fun s => s ≠ "")
  let tags := ((page.findTexts ".tagged_as a").map pyStrip).filter (fun s => s ≠ "")
  let imgStep : List String × Nat :=
    match page.gallery with
    | none => ([], wpStep.2)
    | some imgs =>
      match filterImages imgs with
      | none => ([], wpStep.2)
      | some image_urls =>
        let c2 := wpStep.2 + 1
        let folder_name := toString c2 ++ "_" ++ sanitize_filename (title.getD "")
        if cfg.download_images && !image_urls.isEmpty then
          (downloadAll deps image_urls ("images/" ++ folder_name), c2)
        else
          (image_urls, c2)
  ({ wp_id := wpStep.1, title := title, price := price, description := description,
     sku := sku, oem := st.1, tags := tags, attributes := st.2,
     images := imgStep.1, categories := categories, url := some url,
     scraped_at := some now }, imgStep.2)

/-! ## Claim C6 — all-optional-selectors-absent extraction -/

/-- A detail page on which every selector probe fails. -/
def emptyPage : Page :=
  { findText := fun _ => none, findTexts := fun _ => [],
    findAttr := fun _ _ => none, specRows := [], descTab := false,
    specRowsAfterClick := [], gallery := none }

/-- A `FileRepository` whose downloads all fail (irrelevant on a page
without a gallery). -/
def noDeps : Deps := ⟨fun _ _ _ => none⟩

/-- The configuration with the default WooCommerce selectors of
`scraper_config.py`. -/
def cfgDefault : Config :=
  { base_url := "https://example.com/shop", download_images := true,
    test_mode := false, test_limit := 10, login_enabled := false,
    selectors_title := "h1.product_title",
    selectors_price := ".price .amount",
    selectors_description := ".woocommerce-product-details__short-description",
    selectors_product_links := ".products .product a.woocommerce-LoopProduct-link",
    selectors_pagination_next := ".next.page-numbers" }

/-- C6: on a detail page lacking every optional selector, `scrape_product`
still returns a (non-null) record whose optional fields are all at their
empty/unset default — no probe failure aborts a sibling probe, and the
function is total (never raises).  The external identifier is the one field
the source guarantees: it is synthesized from the counter. -/
theorem C6_empty_page_extraction (cfg : Config) (deps : Deps) (now url : String)
    (page : Page) (counter : Nat)
    (h1 : ∀ s, page.findText s = none)
    (h2 : ∀ s, page.findTexts s = [])
    (h3 : ∀ s a, page.findAttr s a = none)
    (h4 : page.specRows = [])
    (h5 : page.descTab = false)
    (h6 : page.gallery = none) :
    scrape_product cfg deps now url page counter =
      ({ wp_id := some (toString (counter + 1)), url := some url,
         scraped_at := some now }, counter + 1) := by
  simp [scrape_product, h1, h2, h3, h4, h5, h6, extract_text_safe, scrape_price,
    extract_price, extractPriceAux, price_selectors, parse_spec_table, truthyStr]

/-- Witness for C6 at the concrete empty page, counter 0. -/
theorem C6_empty_page_extraction_witness :
    scrape_product cfgDefault noDeps "2026-10-12T00:00:00" "https://example.com/p/1"
        emptyPage 0 =
      ({ wp_id := some "1", url := some "https://example.com/p/1",
         scraped_at := some "2026-10-12T00:00:00" }, 1) :=
  C6_empty_page_extraction cfgDefault noDeps "2026-10-12T00:00:00"
    "https://example.com/p/1" emptyPage 0
    (fun _ => rfl) (fun _ => rfl) (fun _ _ => rfl) rfl rfl rfl

/-! ## Claim C8 — gallery image filtering

The source tests `"http" in src` — substring containment, not an http(s)
scheme prefix.  Hence the claim's own example `["a.jpg", "a-150x150.jpg",
"b.png", "a.jpg"]` (no candidate contains `"http"`) filters to `[]`, not to
`["a.jpg", "b.png"]`; conversely a URL without an http(s) scheme is accepted
as soon as `"http"` occurs anywhere in it.  The thumbnail-suffix rejection
and first-seen-order deduplication are as claimed.
-/

/-- C8 counterexample: the claimed example yields `[]` because no candidate
contains the substring `"http"`, and a non-http(s)-scheme URL containing
`"http"` elsewhere is accepted. -/
theorem C8_image_filter_counterexample :
    filterImages (["a.jpg", "a-150x150.jpg", "b.png", "a.jpg"].map imgOfUrl) = some []
      ∧
    filterImages (["a.jpg", "a-150x150.jpg", "b.png", "a.jpg"].map imgOfUrl) ≠
      some ["a.jpg", "b.png"] ∧
    filterImages [imgOfUrl "ftp://host/httpish.png"] = some ["ftp://host/httpish.png"]
      := by
  decide

theorem filterImagesAux_spec :
    ∀ (imgs : List ImgElem), (∀ img ∈ imgs, img.classAttr ≠ none) →
      ∀ acc seen, acc.Nodup → (∀ x ∈ acc, x ∈ seen) →
        ∃ l, filterImagesAux imgs acc seen = some (acc ++ l) ∧
          l.Nodup ∧
          (∀ u ∈ l, u ∉ seen ∧ pyIn "http" u = true ∧ isThumb u = false) ∧
          List.Sublist l (imgs.filterMap resolveSrc) := by
  intro imgs
  induction imgs with
  | nil =>
    intro _ acc seen _ _
    exact ⟨[], by simp [filterImagesAux], by simp, by simp, by simp⟩
  | cons img rest ih =>
    intro hcls acc seen hnd hsub
    have hclsRest : ∀ i ∈ rest, i.classAttr ≠ none :=
      fun i hi => hcls i (List.mem_cons_of_mem _ hi)
    match hsrc : resolveSrc img with
    | none =>
      obtain ⟨l, hl, hnd2, hprops, hsl⟩ := ih hclsRest acc seen hnd hsub
      refine ⟨l, ?_, hnd2, hprops, ?_⟩
      · rw [filterImagesAux, hsrc]
        exact hl
      · simpa [List.filterMap_cons, hsrc] using hsl
    | some s =>
      by_cases hse : s = ""
      · obtain ⟨l, hl, hnd2, hprops, hsl⟩ := ih hclsRest acc seen hnd hsub
        refine ⟨l, ?_, ?_⟩
        · rw [filterImagesAux, hsrc]
          simpa [hse] using hl
        · refine ⟨hnd2, hprops, ?_⟩
          simp only [List.filterMap_cons, hsrc]
          exact hsl.cons _
      · by_cases hseen : s ∈ seen
        · obtain ⟨l, hl, hnd2, hprops, hsl⟩ := ih hclsRest acc seen hnd hsub
          refine ⟨l, ?_, ?_⟩
          · rw [filterImagesAux, hsrc]
            simpa [hse, hseen] using hl
          · refine ⟨hnd2, hprops, ?_⟩
            simp only [List.filterMap_cons, hsrc]
            exact hsl.cons _
        · by_cases hhttp : pyIn "http" s = false
          · obtain ⟨l, hl, hnd2, hprops, hsl⟩ := ih hclsRest acc seen hnd hsub
            refine ⟨l, ?_, ?_⟩
            · rw [filterImagesAux, hsrc]
              simpa [hse, hseen, hhttp] using hl
            · refine ⟨hnd2, hprops, ?_⟩
              simp only [List.filterMap_cons, hsrc]
              exact hsl.cons _
          · match hca : img.classAttr with
            | none => exact absurd hca (hcls img (List.mem_cons_self _ _))
            | some cls =>
              by_cases hzoom : pyIn "zoomImg" cls
              · obtain ⟨l, hl, hnd2, hprops, hsl⟩ := ih hclsRest acc seen hnd hsub
                refine ⟨l, ?_, ?_⟩
                · rw [filterImagesAux, hsrc]
                  simpa [hse, hseen, hhttp, hca, hzoom] using hl
                · refine ⟨hnd2, hprops, ?_⟩
                  simp only [List.filterMap_cons, hsrc]
                  exact hsl.cons _
              · by_cases hth : isThumb s
                · obtain ⟨l, hl, hnd2, hprops, hsl⟩ := ih hclsRest acc seen hnd hsub
                  refine ⟨l, ?_, ?_⟩
                  · rw [filterImagesAux, hsrc]
                    simpa [hse, hseen, hhttp, hca, hzoom, hth] using hl
                  · refine ⟨hnd2, hprops, ?_⟩
                    simp only [List.filterMap_cons, hsrc]
                    exact hsl.cons _
                · have hnd2 : (acc ++ [s]).Nodup := by
                    rw [List.nodup_append]
                    refine ⟨hnd, List.nodup_singleton s, ?_⟩
                    intro x hx hxs
                    simp only [List.mem_singleton] at hxs
                    subst hxs
                    exact hseen (hsub x hx)
                  have hsub2 : ∀ x ∈ acc ++ [s], x ∈ s :: seen := by
                    intro x hx
                    rcases List.mem_append.1 hx with hx | hx
                    · exact List.mem_cons_of_mem _ (hsub x hx)
                    · simp only [List.mem_singleton] at hx
                      subst hx
                      exact List.mem_cons_self _ _
                  obtain ⟨l, hl, hnd3, hprops, hsl⟩ :=
                    ih hclsRest (acc ++ [s]) (s :: seen) hnd2 hsub2
                  refine ⟨s :: l, ?_, ?_, ?_, ?_⟩
                  · rw [filterImagesAux, hsrc]
                    simpa [hse, hseen, hhttp, hca, hzoom, hth, List.append_assoc]
                      using hl
                  · rw [List.nodup_cons]
                    refine ⟨fun hsl2 => ?_, hnd3⟩
                    exact (hprops s hsl2).1 (List.mem_cons_self _ _)
                  · intro u hu
                    rcases List.mem_cons.1 hu with hu | hu
                    · subst hu
                      exact ⟨hseen, by simpa using hhttp, by simpa using hth⟩
                    · obtain ⟨hu1, hu2, hu3⟩ := hprops u hu
                      exact ⟨fun hx => hu1 (List.mem_cons_of_mem _ hx), hu2, hu3⟩
                  · simp only [List.filterMap_cons, hsrc]
                    exact hsl.cons₂ _

/-- C8 (amended): the filter accepts exactly the candidates whose resolved
URL contains `"http"` as a substring (not necessarily as a scheme) and
matches no thumbnail-dimension suffix, deduplicating by resolved URL while
preserving first-seen order (the kept list is a subsequence of the resolved
candidate sequence, duplicate-free); on the claim's example lifted to
`http`-bearing URLs the result keeps the full-size URL and the first copy
only. -/
theorem C8_image_filter_amended (imgs : List ImgElem)
    (hcls : ∀ img ∈ imgs, img.classAttr ≠ none) :
    (∃ l, filterImages imgs = some l ∧ l.Nodup ∧
      (∀ u ∈ l, pyIn "http" u = true ∧ isThumb u = false) ∧
      List.Sublist l (imgs.filterMap resolveSrc)) ∧
    filterImages (["http://s/a.jpg", "http://s/a-150x150.jpg", "http://s/b.png",
      "http://s/a.jpg"].map imgOfUrl) = some ["http://s/a.jpg", "http://s/b.png"] := by
  constructor
  · obtain ⟨l, hl, hnd, hprops, hsl⟩ :=
      filterImagesAux_spec imgs hcls [] [] (by simp) (by simp)
    exact ⟨l, by simpa [filterImages] using hl, hnd,
      fun u hu => ⟨(hprops u hu).2.1, (hprops u hu).2.2⟩, hsl⟩
  · decide

/-- Witness for C8 (amended) on a concrete two-candidate list with a
duplicate. -/
theorem C8_image_filter_amended_witness :
    ∃ l, filterImages [imgOfUrl "http://s/a.jpg", imgOfUrl "http://s/a.jpg"] = some l ∧
      l.Nodup ∧ (∀ u ∈ l, pyIn "http" u = true ∧ isThumb u = false) ∧
      List.Sublist l ([imgOfUrl "http://s/a.jpg", imgOfUrl "http://s/a.jpg"].filterMap resolveSrc) :=
  (C8_image_filter_amended [imgOfUrl "http://s/a.jpg", imgOfUrl "http://s/a.jpg"]
    (by decide)).1

/-! ## Claim C9 — ordered price selector variants with fallback -/

theorem extractPriceAux_all_fail (page : Page) :
    ∀ sels, (∀ s ∈ sels, priceProbe page s = none) →
      extractPriceAux page sels = none := by
  intro sels
  induction sels with
  | nil => intro _; rfl
  | cons sel rest ih =>
    intro h
    have hsel := h sel (List.mem_cons_self _ _)
    have hrest := ih (fun s hs => h s (List.mem_cons_of_mem _ hs))
    rw [extractPriceAux]
    rw [priceProbe] at hsel
    match hgl : (page.findTexts sel).getLast? with
    | none => exact hrest
    | some t =>
      rw [hgl] at hsel
      have hsel2 : (if pyStrip t ≠ "" then some (pyStrip t) else none) = none := hsel
      by_cases ht : pyStrip t ≠ ""
      · rw [if_pos ht] at hsel2
        cases hsel2
      · show (if pyStrip t ≠ "" then some (pyStrip t) else extractPriceAux page rest) =
          none
        rw [if_neg ht]
        exact hrest

theorem extractPriceAux_first_success (page : Page) :
    ∀ (pre : List String) (sel : String) (post : List String) (t : String),
      (∀ s ∈ pre, priceProbe page s = none) →
      priceProbe page sel = some t →
      extractPriceAux page (pre ++ sel :: post) = some t := by
  intro pre
  induction pre with
  | nil =>
    intro sel post t _ hsel
    rw [priceProbe] at hsel
    rw [List.nil_append, extractPriceAux]
    match hgl : (page.findTexts sel).getLast? with
    | none =>
      rw [hgl] at hsel
      exact Option.noConfusion hsel
    | some u =>
      rw [hgl] at hsel
      have hsel2 : (if pyStrip u ≠ "" then some (pyStrip u) else none) = some t := hsel
      by_cases hu : pyStrip u ≠ ""
      · rw [if_pos hu] at hsel2
        show (if pyStrip u ≠ "" then some (pyStrip u) else extractPriceAux page post) =
          some t
        rw [if_pos hu]
        exact hsel2
      · rw [if_neg hu] at hsel2
        cases hsel2
  | cons p rest ih =>
    intro sel post t hpre hsel
    have hp := hpre p (List.mem_cons_self _ _)
    have hrest := ih sel post t (fun s hs => hpre s (List.mem_cons_of_mem _ hs)) hsel
    rw [List.cons_append, extractPriceAux]
    rw [priceProbe] at hp
    match hgl : (page.findTexts p).getLast? with
    | none => exact hrest
    | some u =>
      rw [hgl] at hp
      have hp2 : (if pyStrip u ≠ "" then some (pyStrip u) else none) = none := hp
      by_cases hu : pyStrip u ≠ ""
      · rw [if_pos hu] at hp2
        cases hp2
      · show (if pyStrip u ≠ "" then some (pyStrip u)
            else extractPriceAux page (rest ++ sel :: post)) = some t
        rw [if_neg hu]
        exact hrest

/-- C9: price extraction walks the fixed ordered variant list; for each
variant only the *last* matched element is considered (`priceProbe` reads
`elements[-1]`), and the first variant whose last element has non-empty
trimmed text wins; only when every variant fails does the price assignment
of `scrape_product` fall back to the single configured price selector. -/
theorem C9_price_order (cfg : Config) (page : Page) (pre post : List String)
    (sel t : String) :
    (price_selectors = pre ++ sel :: post →
      (∀ s ∈ pre, priceProbe page s = none) →
      priceProbe page sel = some t →
      extract_price page = some t) ∧
    ((∀ s ∈ price_selectors, priceProbe page s = none) →
      extract_price page = none ∧
      scrape_price cfg page = extract_text_safe page cfg.selectors_price) := by
  constructor
  · intro hsplit hpre hsel
    rw [extract_price, hsplit]
    exact extractPriceAux_first_success page pre sel post t hpre hsel
  · intro hall
    have h0 : extract_price page = none := extractPriceAux_all_fail page _ hall
    refine ⟨h0, ?_⟩
    rw [scrape_price, h0]
    rfl

/-- A page where the most-specific variant matches nothing and the second
variant matches two price elements (original then sale price). -/
def pricePage : Page :=
  { findText := fun _ => none,
    findTexts := fun s =>
      if s = "p.price span.woocommerce-Price-amount" then ["10 AZN", "8 AZN"] else [],
    findAttr := fun _ _ => none, specRows := [], descTab := false,
    specRowsAfterClick := [], gallery := none }

/-- Witness for C9: on `pricePage` the second variant wins with the *last*
of its two elements; on the all-failing `emptyPage` the fallback to the
configured selector is taken. -/
theorem C9_price_order_witness :
    extract_price pricePage = some "8 AZN" ∧
    scrape_price cfgDefault emptyPage = extract_text_safe emptyPage ".price .amount" := by
  constructor
  · exact (C9_price_order cfgDefault pricePage
      ["div.summary p.price span.woocommerce-Price-amount"]
      ["span.price .woocommerce-Price-amount", ".price ins .woocommerce-Price-amount",
       ".price .amount"]
      "p.price span.woocommerce-Price-amount" "8 AZN").1 rfl
      (by
        intro s hs
        simp only [List.mem_singleton] at hs
        subst hs
        rfl)
      rfl
  · exact ((C9_price_order cfgDefault emptyPage [] [] "" "").2
      (fun s _ => rfl)).2

/-! ## `ScraperService.get_product_links` — link discovery

The site is abstracted as the chain of listing pages reachable via the
pagination-next control: `pages.head` is `base_url`, and after loading page
`i` the next control exists exactly when page `i+1` exists.  The crawl
returns the collected hrefs plus, as a ghost observable, the number of page
loads (`driver.get` calls) performed — the source returns only the links.
The stop flag is passed as the value `get_product_links` observes at its
checkpoints (claim C3 is about the cap; the flag stays false there).
-/

def crawlAux (testMode : Bool) (testLimit : Nat) (stop : Bool) :
    List (List String) → List String → List String × Nat
  | [], links => (links, 0)
  | p :: rest, links =>
    -- stop-flag check at the top of the loop
    if stop then (links, 0)
    -- cap check before the page load
    else if testMode ∧ links.length ≥ testLimit then (links, 0)
    else
      -- load the page, extend the link list
      let links2 := links ++ p
      -- cap check after the page load
      if testMode ∧ links2.length ≥ testLimit then (links2, 1)
      else
        match rest with
        | [] => (links2, 1)           -- no pagination-next control: break
        | q :: qs =>
          let r := crawlAux testMode testLimit stop (q :: qs) links2
          (r.1, r.2 + 1)

/-- `get_product_links` (lines 388-439): crawl, truncate to the cap in test
mode, deduplicate (`list(set(links))`; the set's iteration order is
unspecified, the first-occurrence order stands in for it). -/
def get_product_links (cfg : Config) (pages : List (List String)) (stop : Bool) :
    List String × Nat :=
  let r := crawlAux cfg.test_mode cfg.test_limit stop pages []
  ((if cfg.test_mode then r.1.take cfg.test_limit else r.1).dedup, r.2)

theorem crawlAux_char (K : Nat) :
    ∀ (pages : List (List String)) (links : List String),
      (crawlAux true K false pages links).1 =
        links ++ ((pages.take (crawlAux true K false pages links).2).flatten) ∧
      ((crawlAux true K false pages links).1.length ≥ K ∨
        (crawlAux true K false pages links).2 = pages.length) ∧
      (∀ m, m < (crawlAux true K false pages links).2 →
        (links ++ (pages.take m).flatten).length < K) := by
  intro pages
  induction pages with
  | nil =>
    intro links
    refine ⟨by simp [crawlAux], Or.inr rfl, ?_⟩
    intro m hm
    simp [crawlAux] at hm
  | cons p rest ih =>
    intro links
    by_cases h0 : links.length ≥ K
    · have hc : crawlAux true K false (p :: rest) links = (links, 0) := by
        rw [crawlAux]
        simp [h0]
      rw [hc]
      refine ⟨by simp, Or.inl h0, ?_⟩
      intro m hm
      simp at hm
    · by_cases h1 : (links ++ p).length ≥ K
      · have hc : crawlAux true K false (p :: rest) links = (links ++ p, 1) := by
          rw [crawlAux]
          simp [h0, h1]
          intro hx
          exfalso
          rw [List.length_append] at h1
          omega
        rw [hc]
        refine ⟨by simp, Or.inl h1, ?_⟩
        intro m hm
        interval_cases m
        simpa using h0
      · match rest with
        | [] =>
          have hc : crawlAux true K false [p] links = (links ++ p, 1) := by
            rw [crawlAux]
            simp [h0, h1]
          rw [hc]
          refine ⟨by simp, Or.inr rfl, ?_⟩
          intro m hm
          interval_cases m
          simpa using h0
        | q :: qs =>
          obtain ⟨ih1, ih2, ih3⟩ := ih (links ++ p)
          have hc : crawlAux true K false (p :: q :: qs) links =
              ((crawlAux true K false (q :: qs) (links ++ p)).1,
               (crawlAux true K false (q :: qs) (links ++ p)).2 + 1) := by
            rw [crawlAux]
            simp [h0, h1]
            intro hx
            exfalso
            rw [List.length_append] at h1
            omega
          rw [hc]
          refine ⟨?_, ?_, ?_⟩
          · simpa [List.append_assoc] using ih1
          · rcases ih2 with h | h
            · exact Or.inl h
            · exact Or.inr (by simp [h])
          · intro m hm
            match m with
            | 0 => simpa using Nat.lt_of_not_le (fun hx => h0 hx)
            | Nat.succ m' =>
              have hm' : m' < (crawlAux true K false (q :: qs) (links ++ p)).2 :=
                Nat.lt_of_succ_lt_succ hm
              have := ih3 m' hm'
              simpa [List.append_assoc] using this

/-! ## Claim C3 — discovery cap

For a listing whose pages carry pairwise-distinct product links ("more than
K total items spread over multiple pages"), discovery in test mode with cap
K returns exactly K URLs, deduplicated, and the number of page loads is
exactly the least number of pages whose links reach the cap: every page that
was loaded was loaded while the collected count was still below K (the cap
is checked before and after each fetch), and the loaded prefix suffices.
-/

/-- C3: with the cap `K = cfg.test_limit` configured and strictly more than
`K` pairwise-distinct links spread over the pages, `get_product_links`
returns exactly `K` URLs (duplicate-free), every page load happened while
fewer than `K` links were collected, and the loaded prefix reaches `K`. -/
theorem C3_discovery_cap (cfg : Config) (pages : List (List String))
    (htm : cfg.test_mode = true)
    (hnd : pages.flatten.Nodup)
    (hlen : cfg.test_limit < pages.flatten.length) :
    (get_product_links cfg pages false).1.length = cfg.test_limit ∧
    (get_product_links cfg pages false).1.Nodup ∧
    (∀ m, m < (get_product_links cfg pages false).2 →
      ((pages.take m).flatten).length < cfg.test_limit) ∧
    cfg.test_limit ≤ ((pages.take (get_product_links cfg pages false).2).flatten).length
      := by
  obtain ⟨h1, h2, h3⟩ := crawlAux_char cfg.test_limit pages []
  rw [List.nil_append] at h1
  have hKle : cfg.test_limit ≤ (crawlAux true cfg.test_limit false pages []).1.length := by
    rcases h2 with h | h
    · exact h
    · rw [h1, h, List.take_length]
      exact Nat.le_of_lt hlen
  have hndpre :
      ((pages.take (crawlAux true cfg.test_limit false pages []).2).flatten).Nodup := by
    have hsplit :
        ((pages.take (crawlAux true cfg.test_limit false pages []).2).flatten ++
          (pages.drop (crawlAux true cfg.test_limit false pages []).2).flatten).Nodup := by
      rw [← List.flatten_append, List.take_append_drop]
      exact hnd
    exact hsplit.of_append_left
  have hr1nd : (crawlAux true cfg.test_limit false pages []).1.Nodup := by
    rw [h1]
    exact hndpre
  have hgl : get_product_links cfg pages false =
      (((crawlAux true cfg.test_limit false pages []).1.take cfg.test_limit).dedup,
       (crawlAux true cfg.test_limit false pages []).2) := by
    rw [get_product_links, htm]
    simp
  have htknd : ((crawlAux true cfg.test_limit false pages []).1.take cfg.test_limit).Nodup :=
    hr1nd.sublist (List.take_sublist _ _)
  have hdedup :
      ((crawlAux true cfg.test_limit false pages []).1.take cfg.test_limit).dedup =
        (crawlAux true cfg.test_limit false pages []).1.take cfg.test_limit :=
    List.dedup_eq_self.2 htknd
  refine ⟨?_, ?_, ?_, ?_⟩
  · rw [hgl]
    simp only [hdedup, List.length_take]
    exact Nat.min_eq_left hKle
  · rw [hgl]
    simp only [hdedup]
    exact htknd
  · intro m hm
    rw [hgl] at hm
    have := h3 m hm
    rw [List.nil_append] at this
    exact this
  · rw [hgl]
    rw [← h1]
    exact hKle

/-- The test-mode configuration with cap 3. -/
def cfgTest : Config :=
  { cfgDefault with test_mode := true, test_limit := 3 }

/-- Witness for C3: five distinct links over three pages, cap 3 — exactly
three URLs returned, duplicate-free, and the loaded prefix reaches the cap. -/
theorem C3_discovery_cap_witness :
    (get_product_links cfgTest [["u1", "u2"], ["u3", "u4"], ["u5"]] false).1.length = 3 ∧
    (get_product_links cfgTest [["u1", "u2"], ["u3", "u4"], ["u5"]] false).1.Nodup ∧
    3 ≤ (([["u1", "u2"], ["u3", "u4"], ["u5"]].take
      (get_product_links cfgTest [["u1", "u2"], ["u3", "u4"], ["u5"]] false).2).flatten).length
      := by
  obtain ⟨a, b, _, d⟩ :=
    C3_discovery_cap cfgTest [["u1", "u2"], ["u3", "u4"], ["u5"]] rfl (by decide) (by decide)
  exact ⟨a, b, d⟩

/-! ## The orchestrator: `_perform_login`, `scrape_product_worker`, `scrape_all`

The service state carries the fields of `ScraperService.__init__` that the
orchestrator claims touch.  A run's environment (`RunWorld`) fixes whether
the login flow succeeds, the cookies it would capture, the listing chain,
and the outcome of one URL's end-to-end extraction (driver creation +
`scrape_product`; its counter side effects are irrelevant to the
orchestrator claims).  The concurrent worker pool is sequentialized: units
execute in submission order, and the external stop request becomes visible
immediately before unit `stopAfter` starts (`none` = never) — the
cooperative-cancellation checkpoints of the source (top of
`scrape_product_worker`, dispatch loop of `scrape_all`) are modelled at
exactly those two places.
-/

structure ScraperState where
  scraped_products : List ProductData
  session_cookies : List String
  global_counter : Nat
  stop_requested : Bool
deriving Repr, DecidableEq

structure RunWorld where
  loginOk : Bool
  loginCookies : List String
  pages : List (List String)
  extract : String → Option ProductData

/-- `ScraperService._perform_login` (lines 67-92): no-op success when login
is disabled; on success captures the session cookies and returns `True`; any
selector-resolution failure is caught and returns `False` (no exception),
leaving the state unchanged. -/
def perform_login (cfg : Config) (w : RunWorld) (st : ScraperState) :
    Bool × ScraperState :=
  if ¬cfg.login_enabled then (true, st)
  else if w.loginOk then (true, { st with session_cookies := w.loginCookies })
  else (false, st)

/-- `ScraperService.scrape_product_worker` (lines 348-386): skip at the top
when the stop flag is set; otherwise run the extraction and append a
non-null result to the shared list (under the products mutex). -/
def scrape_product_worker (w : RunWorld) (st : ScraperState) (url : String) :
    Option ProductData × ScraperState :=
  if st.stop_requested then (none, st)
  else
    match w.extract url with
    | some p => (some p, { st with scraped_products := st.scraped_products ++ [p] })
    | none => (none, st)

/-- The worker phase of `scrape_all` (lines 465-479), sequentialized.
Returns the final state and the number of units that began extraction.
When the dispatch loop observes the stop request (`stopAfter = some 0`) it
ceases submitting and cancels pending units (`shutdown(cancel_futures)`):
no further unit begins and nothing more is appended. -/
def runWorkers (w : RunWorld) : Option Nat → List String → ScraperState →
    ScraperState × Nat
  | _, [], st => (st, 0)
  | stopAfter, url :: rest, st =>
    if stopAfter = some 0 then ({ st with stop_requested := true }, 0)
    else
      let r1 := scrape_product_worker w st url
      let r := runWorkers w (stopAfter.map Nat.pred) rest r1.2
      (r.1, r.2 + (if st.stop_requested then 0 else 1))

/-- `ScraperService.scrape_all` (lines 441-481).  Returns the value the
source returns (`self.scraped_products`, or a fresh `[]` when no links were
found), the final state, and two ghost observables: the number of listing
page loads and the number of worker units that began extraction.  Note the
source calls `self._perform_login(driver)` at line 453 and discards its
boolean result: the run proceeds to discovery and workers regardless. -/
def scrape_all (cfg : Config) (w : RunWorld) (stopAfter : Option Nat)
    (st : ScraperState) : List ProductData × ScraperState × Nat × Nat :=
  let st1 := if cfg.login_enabled then (perform_login cfg w st).2 else st
  let links := get_product_links cfg w.pages st1.stop_requested
  if links.1 = [] then ([], st1, links.2, 0)
  else
    let r := runWorkers w stopAfter links.1 st1
    (r.1.scraped_products, r.1, links.2, r.2)

/-! ## Claim C1 — authentication failure must abort the run

`_perform_login` does return `False` (not an exception) on failure, but
`scrape_all` discards that result, so the run is *not* aborted: links are
discovered and workers are started.  The spec states the intent plainly
("fatal to the run; surfaced to the caller, no links are discovered, no
workers are started") and the boolean success value exists precisely to be
checked, so this is recorded as a bug in the code rather than a spec error.
-/

/-- The login-enabled configuration. -/
def cfgLogin : Config :=
  { cfgDefault with login_enabled := true }

/-- A world where the login flow fails, with one listing page of one product
whose extraction succeeds. -/
def loginFailWorld : RunWorld :=
  { loginOk := false, loginCookies := [],
    pages := [["https://example.com/p/1"]],
    extract := fun u =>
      if u = "https://example.com/p/1" then some { url := some u } else none }

/-- The fresh service state of `ScraperService.__init__`. -/
def initState : ScraperState :=
  { scraped_products := [], session_cookies := [], global_counter := 0,
    stop_requested := false }

/-- C1 (code bug): with login enabled and `_perform_login` returning
`False`, `scrape_all` still loads a listing page, still starts a worker
unit, and still returns the extracted record — the failure aborts nothing,
because the boolean result of `_perform_login` is discarded at line 453. -/
theorem C1_auth_failure_run_proceeds :
    (perform_login cfgLogin loginFailWorld initState).1 = false ∧
    (scrape_all cfgLogin loginFailWorld none initState).2.2.1 = 1 ∧
    (scrape_all cfgLogin loginFailWorld none initState).2.2.2 = 1 ∧
    (scrape_all cfgLogin loginFailWorld none initState).1 =
      [{ url := some "https://example.com/p/1" }] := by
  refine ⟨rfl, ?_, ?_, ?_⟩ <;> rfl

/-! ## Claim C5 — cooperative cancellation -/

/-- C5: when the stop request becomes visible after `k` units, exactly the
first `min k |urls|` units begin extraction (later units are cancelled by
the dispatch loop or skip at their top-of-unit check), units already begun
run to completion, and the shared result list gains exactly the records of
the completed successful extractions — nothing from any unit that never
began. -/
theorem C5_cancellation (w : RunWorld) (urls : List String) (st : ScraperState)
    (k : Nat) (hstop : st.stop_requested = false) :
    (runWorkers w (some k) urls st).2 = min k urls.length ∧
    (runWorkers w (some k) urls st).1.scraped_products =
      st.scraped_products ++ ((urls.take k).filterMap w.extract) := by
  induction urls generalizing st k with
  | nil => simp [runWorkers]
  | cons url rest ih =>
    match k with
    | 0 =>
      constructor
      · rw [runWorkers]
        simp
      · rw [runWorkers]
        simp
    | Nat.succ k' =>
      have hw2 : (scrape_product_worker w st url).2 =
          { st with scraped_products := st.scraped_products ++ (w.extract url).toList }
          := by
        rw [scrape_product_worker, hstop]
        cases w.extract url
        · obtain ⟨a, b, c, d⟩ := st
          simp_all [Option.toList]
        · obtain ⟨a, b, c, d⟩ := st
          simp_all [Option.toList]
      have hw3 : (scrape_product_worker w st url).2.stop_requested = false := by
        rw [hw2]
        exact hstop
      obtain ⟨ih1, ih2⟩ := ih (scrape_product_worker w st url).2 k' hw3
      have hstep : runWorkers w (some (k' + 1)) (url :: rest) st =
          ((runWorkers w (some k') rest (scrape_product_worker w st url).2).1,
           (runWorkers w (some k') rest (scrape_product_worker w st url).2).2 + 1)
          := by
        rw [runWorkers]
        simp [hstop]
      constructor
      · rw [hstep]
        simp only []
        rw [ih1, List.length_cons]
        omega
      · rw [hstep]
        simp only []
        rw [ih2, hw2]
        simp only [List.take_succ_cons, List.filterMap_cons]
        cases w.extract url <;> simp

/-- A world whose extraction succeeds except on `"u3"`. -/
def cancelWorld : RunWorld :=
  { loginOk := true, loginCookies := [], pages := [],
    extract := fun u => if u = "u3" then none else some { url := some u } }

/-- Witness for C5: four queued units, stop visible after two — two units
begin, and exactly their two records are in the shared list. -/
theorem C5_cancellation_witness :
    (runWorkers cancelWorld (some 2) ["u1", "u2", "u3", "u4"] initState).2 = 2 ∧
    (runWorkers cancelWorld (some 2) ["u1", "u2", "u3", "u4"] initState).1.scraped_products
      = [{ url := some "u1" }, { url := some "u2" }] := by
  have h := C5_cancellation cancelWorld ["u1", "u2", "u3", "u4"] initState 2 rfl
  exact ⟨h.1, h.2⟩

/-! ## Claim C10 — the shared result list across runs

The claim says `scrape_all` always returns the live, never-cleared
`scraped_products` list, so any later call returns the earlier records too.
That fails in one branch: when discovery finds no links, line 460 returns a
fresh `[]`, not the accumulated list (which is nevertheless left intact).
-/

/-- A world with no listing pages at all (discovery yields no links). -/
def emptyWorld : RunWorld :=
  { loginOk := true, loginCookies := [], pages := [], extract := fun _ => none }

/-- A service state that already accumulated one record in an earlier run. -/
def stWithHistory : ScraperState :=
  { scraped_products := [{ title := some "old" }], session_cookies := [],
    global_counter := 5, stop_requested := false }

/-- C10 counterexample: on a second run that discovers no links,
`scrape_all` returns `[]` even though the instance still holds the earlier
record — the returned list is not the live accumulated list in that branch.
-/
theorem C10_live_list_counterexample :
    (scrape_all cfgDefault emptyWorld none stWithHistory).1 = [] ∧
    (scrape_all cfgDefault emptyWorld none stWithHistory).2.1.scraped_products =
      [{ title := some "old" }] ∧
    ({ title := some "old" } : ProductData) ∉
      (scrape_all cfgDefault emptyWorld none stWithHistory).1 := by
  decide

theorem runWorkers_products_prefix (w : RunWorld) :
    ∀ (k? : Option Nat) (urls : List String) (st : ScraperState),
      ∃ new, (runWorkers w k? urls st).1.scraped_products =
        st.scraped_products ++ new := by
  intro k? urls
  induction urls generalizing k? with
  | nil =>
    intro st
    exact ⟨[], by simp [runWorkers]⟩
  | cons url rest ih =>
    intro st
    by_cases hk : k? = some 0
    · refine ⟨[], ?_⟩
      rw [runWorkers, if_pos hk]
      simp
    · obtain ⟨new1, hnew1⟩ := ih (k?.map Nat.pred) (scrape_product_worker w st url).2
      have hw : ∃ add, (scrape_product_worker w st url).2.scraped_products =
          st.scraped_products ++ add := by
        rw [scrape_product_worker]
        by_cases hs : st.stop_requested
        · exact ⟨[], by simp [hs]⟩
        · simp only [hs, Bool.false_eq_true, if_false]
          cases w.extract url
          · exact ⟨[], by simp⟩
          · exact ⟨_, rfl⟩
      obtain ⟨add, hadd⟩ := hw
      refine ⟨add ++ new1, ?_⟩
      rw [runWorkers, if_neg hk]
      show (runWorkers w (k?.map Nat.pred) rest (scrape_product_worker w st url).2).1.scraped_products
        = st.scraped_products ++ (add ++ new1)
      rw [hnew1, hadd, List.append_assoc]

/-- C10 (amended): `scraped_products` is never cleared — `scrape_all` only
appends to it — and *whenever discovery yields at least one link* the call
returns that live accumulated list, so it contains everything accumulated by
earlier calls; only the no-links branch returns a fresh empty list instead.
-/
theorem C10_live_list_amended (cfg : Config) (w : RunWorld) (k? : Option Nat)
    (st : ScraperState)
    (hlinks : (get_product_links cfg w.pages st.stop_requested).1 ≠ []) :
    (scrape_all cfg w k? st).1 = (scrape_all cfg w k? st).2.1.scraped_products ∧
    (∃ new, (scrape_all cfg w k? st).1 = st.scraped_products ++ new) := by
  by_cases hle : cfg.login_enabled
  · have hp : (perform_login cfg w st).2.stop_requested = st.stop_requested := by
      rw [perform_login]
      split_ifs <;> rfl
    have hp2 : (perform_login cfg w st).2.scraped_products = st.scraped_products := by
      rw [perform_login]
      split_ifs <;> rfl
    have hs : scrape_all cfg w k? st =
        ((runWorkers w k? (get_product_links cfg w.pages st.stop_requested).1
            (perform_login cfg w st).2).1.scraped_products,
         (runWorkers w k? (get_product_links cfg w.pages st.stop_requested).1
            (perform_login cfg w st).2).1,
         (get_product_links cfg w.pages st.stop_requested).2,
         (runWorkers w k? (get_product_links cfg w.pages st.stop_requested).1
            (perform_login cfg w st).2).2) := by
      rw [scrape_all]
      simp only [hle, if_true, hp]
      rw [if_neg hlinks]
    obtain ⟨new, hnew⟩ := runWorkers_products_prefix w k?
      (get_product_links cfg w.pages st.stop_requested).1 (perform_login cfg w st).2
    refine ⟨by rw [hs], ⟨new, ?_⟩⟩
    rw [hs]
    show (runWorkers w k? (get_product_links cfg w.pages st.stop_requested).1
        (perform_login cfg w st).2).1.scraped_products = st.scraped_products ++ new
    rw [hnew, hp2]
  · have hs : scrape_all cfg w k? st =
        ((runWorkers w k? (get_product_links cfg w.pages st.stop_requested).1 st).1.scraped_products,
         (runWorkers w k? (get_product_links cfg w.pages st.stop_requested).1 st).1,
         (get_product_links cfg w.pages st.stop_requested).2,
         (runWorkers w k? (get_product_links cfg w.pages st.stop_requested).1 st).2) := by
      rw [scrape_all]
      simp only [hle, Bool.false_eq_true, if_false]
      rw [if_neg hlinks]
    obtain ⟨new, hnew⟩ := runWorkers_products_prefix w k?
      (get_product_links cfg w.pages st.stop_requested).1 st
    refine ⟨by rw [hs], ⟨new, ?_⟩⟩
    rw [hs]
    exact hnew

/-- A world with one listing page holding one link, whose extraction
succeeds. -/
def liveWorld : RunWorld :=
  { loginOk := true, loginCookies := [], pages := [["u1"]],
    extract := fun u => some { url := some u } }

/-- Witness for C10 (amended): a second run that does discover a link
returns the live list, still carrying the earlier record. -/
theorem C10_live_list_amended_witness :
    (scrape_all cfgDefault liveWorld none stWithHistory).1 =
      (scrape_all cfgDefault liveWorld none stWithHistory).2.1.scraped_products ∧
    (∃ new, (scrape_all cfgDefault liveWorld none stWithHistory).1 =
      stWithHistory.scraped_products ++ new) :=
  C10_live_list_amended cfgDefault liveWorld none stWithHistory (by decide)

/-! ## `DatabaseRepository.save_product` — the upsert

Relational model of the four tables created by `_create_tables`
(database_repository.py lines 57-121): `products` (the only non-id UNIQUE
key is `sku`), `product_images` (child rows with an order), `categories`
(UNIQUE name) and the `product_categories` association (primary key
`(product_id, category_id)`).  AUTO_INCREMENT ids are dispensed from
`nextProductId` / `nextCategoryId` starting at 1.

`save_product` (lines 123-226) is:
`INSERT ... ON DUPLICATE KEY UPDATE` on the scalars (the update list names
title, price, description, url, scraped_at — not sku) with the id recovered
via `lastrowid` or the `SELECT id ... WHERE sku = %s` fallback; then
`DELETE FROM product_images WHERE product_id = %s` and a fresh enumerated
insert of the new image list; then, for each category name, find-or-create
the category row and `INSERT IGNORE` the association — note: no DELETE is
issued for `product_categories`. -/

structure ProductRow where
  id : Nat
  title : Option String
  price : Option String
  description : Option String
  sku : Option String
  url : Option String
  scraped_at : Option String
deriving Repr, DecidableEq

structure ImageRow where
  product_id : Nat
  image_url : String
  image_order : Nat
deriving Repr, DecidableEq

structure CategoryRow where
  id : Nat
  name : String
deriving Repr, DecidableEq

structure DB where
  products : List ProductRow
  product_images : List ImageRow
  categories : List CategoryRow
  product_categories : List (Nat × Nat)
  nextProductId : Nat
  nextCategoryId : Nat
deriving Repr, DecidableEq

def emptyDB : DB :=
  { products := [], product_images := [], categories := [],
    product_categories := [], nextProductId := 1, nextCategoryId := 1 }

/-- The `ON DUPLICATE KEY` conflict target: an existing row with the same
non-NULL sku (a NULL sku never conflicts under a UNIQUE constraint). -/
def findBySku (db : DB) : Option String → Option ProductRow
  | none => none
  | some s => db.products.find? (fun r => r.sku == some s)

/-- The `ON DUPLICATE KEY UPDATE` scalar list (sku itself is not updated). -/
def updateScalars (q : ProductRow) (p : ProductData) : ProductRow :=
  { q with title := p.title, price := p.price, description := p.description,
           url := p.url, scraped_at := p.scraped_at }

/-- The enumerated image rows inserted for a product
(`image_order` = position, lines 182-185). -/
def enumImgs (pid : Nat) (urls : List String) : List ImageRow :=
  urls.enum.map (fun e => ⟨pid, e.2, e.1⟩)

/-- `INSERT IGNORE` into `product_categories`: a duplicate of the primary
key is dropped silently. -/
def insertIgnore (pcs : List (Nat × Nat)) (x : Nat × Nat) : List (Nat × Nat) :=
  if x ∈ pcs then pcs else pcs ++ [x]

/-- The category loop (lines 189-214): find-or-create each category row by
name, then `INSERT IGNORE` the association.  Returns the updated category
table, association table and category AUTO_INCREMENT counter. -/
def saveCats : List String → Nat → List CategoryRow → List (Nat × Nat) → Nat →
    List CategoryRow × List (Nat × Nat) × Nat
  | [], _, cats, pcs, nc => (cats, pcs, nc)
  | nm :: rest, pid, cats, pcs, nc =>
    match cats.find? (fun c => c.name == nm) with
    | some c => saveCats rest pid cats (insertIgnore pcs (pid, c.id)) nc
    | none =>
      saveCats rest pid (cats ++ [⟨nc, nm⟩]) (insertIgnore pcs (pid, nc)) (nc + 1)

/-- The child-row block guarded by `if product_id:` (lines 168-214): delete
this product's image rows, insert the new enumerated list, run the category
loop.  `product_categories` rows are never deleted. -/
def saveChildren (db : DB) (p : ProductData) (pid : Nat) : DB × Option Nat :=
  if pid = 0 then (db, none)
  else
    let imgs2 := db.product_images.filter (fun ir => ir.product_id ≠ pid) ++
      enumImgs pid p.images
    let r := saveCats p.categories pid db.categories db.product_categories
      db.nextCategoryId
    ({ db with
        product_images := imgs2
        categories := r.1
        product_categories := r.2.1
        nextCategoryId := r.2.2 }, some pid)

/-- `DatabaseRepository.save_product` (lines 123-226), with persistence
enabled. -/
def save_product (db : DB) (p : ProductData) : DB × Option Nat :=
  match findBySku db p.sku with
  | some r =>
    let db2 := { db with
      products := db.products.map (fun q => if q.id = r.id then updateScalars q p else q) }
    saveChildren db2 p r.id
  | none =>
    let db2 := { db with
      products := db.products ++
        [⟨db.nextProductId, p.title, p.price, p.description, p.sku, p.url, p.scraped_at⟩],
      nextProductId := db.nextProductId + 1 }
    saveChildren db2 p db.nextProductId

/-! ## Claim C2 — idempotent upsert with child replacement

Scalars and image rows behave as claimed: one row per sku, second save's
scalars win, image rows are deleted and re-inserted.  Category associations
do **not**: `save_product` never deletes from `product_categories` — it only
`INSERT IGNORE`s — so associations accumulate across saves.
-/

def p1C2 : ProductData :=
  { title := some "t1", sku := some "S", images := ["http://i/1.jpg"],
    categories := ["A"] }

def p2C2 : ProductData :=
  { title := some "t2", sku := some "S", images := ["http://i/2.jpg"],
    categories := ["B"] }

/-- C2 counterexample: after saving sku `"S"` with category `"A"` and then
again with category `"B"`, the association table holds *both* `(1,1)` (to
`"A"`, from the first call) and `(1,2)` (to `"B"`) — not exactly the second
call's associations. -/
theorem C2_upsert_counterexample :
    (save_product (save_product emptyDB p1C2).1 p2C2).1.product_categories =
      [(1, 1), (1, 2)] ∧
    (save_product emptyDB p1C2).1.product_categories = [(1, 1)] ∧
    (save_product (save_product emptyDB p1C2).1 p2C2).1.categories =
      [⟨1, "A"⟩, ⟨2, "B"⟩] := by
  decide

theorem mem_insertIgnore {pcs : List (Nat × Nat)} {x y : Nat × Nat}
    (h : x ∈ pcs) : x ∈ insertIgnore pcs y := by
  rw [insertIgnore]
  split_ifs
  · exact h
  · exact List.mem_append_left _ h

/-- The category loop only ever adds association rows. -/
theorem saveCats_pcs_mono :
    ∀ (names : List String) (pid : Nat) (cats : List CategoryRow)
      (pcs : List (Nat × Nat)) (nc : Nat) (x : Nat × Nat),
      x ∈ pcs → x ∈ (saveCats names pid cats pcs nc).2.1 := by
  intro names
  induction names with
  | nil =>
    intro pid cats pcs nc x hx
    exact hx
  | cons nm rest ih =>
    intro pid cats pcs nc x hx
    rw [saveCats]
    cases hf : cats.find? (fun c => c.name == nm) with
    | some c => exact ih pid cats _ nc x (mem_insertIgnore hx)
    | none => exact ih pid _ _ _ x (mem_insertIgnore hx)

/-- Deleting a product's image rows removes every freshly enumerated row of
that product. -/
theorem enumImgs_filter_ne (pid : Nat) (urls : List String) :
    (enumImgs pid urls).filter (fun ir => ir.product_id ≠ pid) = [] := by
  rw [List.filter_eq_nil_iff]
  intro ir hir
  rw [enumImgs, List.mem_map] at hir
  obtain ⟨e, _, rfl⟩ := hir
  simp

/-- C2 (amended): saving the same non-null sku twice leaves exactly one
product row for it, with the second call's scalar values winning; the image
rows are fully replaced (exactly the second call's enumerated list); but the
category associations are *appended*, never cleared — every association
created by the first save is still present after the second. -/
theorem enumImgs_product_id (pid : Nat) (urls : List String) :
    ∀ a ∈ enumImgs pid urls, a.product_id = pid := by
  intro a ha
  rw [enumImgs, List.mem_map] at ha
  obtain ⟨e, _, rfl⟩ := ha
  rfl

theorem C2_upsert_amended (p1 p2 : ProductData) (s : String)
    (h1 : p1.sku = some s) (h2 : p2.sku = some s) :
    (save_product (save_product emptyDB p1).1 p2).1.products =
      [⟨1, p2.title, p2.price, p2.description, some s, p2.url, p2.scraped_at⟩] ∧
    (save_product (save_product emptyDB p1).1 p2).1.product_images =
      enumImgs 1 p2.images ∧
    (∀ pc ∈ (save_product emptyDB p1).1.product_categories,
      pc ∈ (save_product (save_product emptyDB p1).1 p2).1.product_categories) := by
  have hfind1 : findBySku emptyDB p1.sku = none := by
    rw [h1]
    rfl
  have hdb1 : (save_product emptyDB p1).1 =
      { products := [⟨1, p1.title, p1.price, p1.description, some s, p1.url,
          p1.scraped_at⟩],
        product_images := enumImgs 1 p1.images,
        categories := (saveCats p1.categories 1 [] [] 1).1,
        product_categories := (saveCats p1.categories 1 [] [] 1).2.1,
        nextProductId := 2,
        nextCategoryId := (saveCats p1.categories 1 [] [] 1).2.2 } := by
    simp only [save_product, hfind1]
    rw [saveChildren]
    simp [emptyDB, h1, enumImgs]
  set db1 := (save_product emptyDB p1).1 with hdb1e
  have hfind2 : findBySku db1 p2.sku =
      some ⟨1, p1.title, p1.price, p1.description, some s, p1.url, p1.scraped_at⟩
      := by
    rw [h2, hdb1]
    simp [findBySku, List.find?]
  have hdb2 : (save_product db1 p2).1 =
      { products := [⟨1, p2.title, p2.price, p2.description, some s, p2.url,
          p2.scraped_at⟩],
        product_images := enumImgs 1 p2.images,
        categories := (saveCats p2.categories 1 (saveCats p1.categories 1 [] [] 1).1
          (saveCats p1.categories 1 [] [] 1).2.1 (saveCats p1.categories 1 [] [] 1).2.2).1,
        product_categories :=
          (saveCats p2.categories 1 (saveCats p1.categories 1 [] [] 1).1
            (saveCats p1.categories 1 [] [] 1).2.1 (saveCats p1.categories 1 [] [] 1).2.2).2.1,
        nextProductId := 2,
        nextCategoryId :=
          (saveCats p2.categories 1 (saveCats p1.categories 1 [] [] 1).1
            (saveCats p1.categories 1 [] [] 1).2.1 (saveCats p1.categories 1 [] [] 1).2.2).2.2 }
      := by
    simp only [save_product, hfind2]
    rw [hdb1]
    simp [saveChildren, updateScalars, enumImgs_filter_ne]
    exact enumImgs_product_id 1 p1.images
  refine ⟨?_, ?_, ?_⟩
  · rw [hdb2]
  · rw [hdb2]
  · intro pc hpc
    rw [hdb1] at hpc
    rw [hdb2]
    exact saveCats_pcs_mono _ _ _ _ _ _ hpc

/-- Witness for C2 (amended) at the concrete products `p1C2`/`p2C2`: one row
with the second save's scalars, image rows replaced, and the first save's
category association still present. -/
theorem C2_upsert_amended_witness :
    (save_product (save_product emptyDB p1C2).1 p2C2).1.products =
      [⟨1, some "t2", none, none, some "S", none, none⟩] ∧
    (save_product (save_product emptyDB p1C2).1 p2C2).1.product_images =
      enumImgs 1 ["http://i/2.jpg"] ∧
    ((1, 1) ∈ (save_product (save_product emptyDB p1C2).1 p2C2).1.product_categories)
      := by
  have h := C2_upsert_amended p1C2 p2C2 "S" rfl rfl
  exact ⟨h.1, h.2.1, h.2.2 (1, 1) (by decide)⟩
